import Mathlib

/-!
Verification development for the batchflow batch-insertion engine.

The Go source is shallowly embedded: pure functions become Lean functions,
the nondeterministic parts (context cancellation, the enqueue `select`,
backend I/O outcomes) become explicit oracle parameters, and Go `error`
values become an inductive `Err` type.  `map[string]any` values are embedded
as association lists together with a lookup function reproducing Go map
read semantics (last write wins, absent key reads as the zero value `nil`).
-/

namespace Batchflow

/-- Go `error` values that appear in the embedded code.  `canceled` and
`deadlineExceeded` model `context.Canceled` / `context.DeadlineExceeded`;
`execTimeout` models the sentinel `errors.New("execute batch timeout")`
allocated inside the processors; the submit validation errors model
`ErrEmptyRequest`, `ErrInvalidSchema`, `ErrMissingColumn`,
`ErrEmptySchemaName`; `msg s` models any other `errors.New(s)`. -/
inductive Err where
  | canceled
  | deadlineExceeded
  | execTimeout
  | emptyRequest
  | invalidSchema
  | missingColumn
  | emptySchemaName
  | msg (s : String)
  | join (e1 e2 : Err)
deriving DecidableEq, Repr

/-- The two values `ctx.Err()` can return for a done Go context. -/
inductive CancelErr where
  | canceled
  | deadlineExceeded
deriving DecidableEq, Repr

def CancelErr.toErr : CancelErr → Err
  | .canceled => .canceled
  | .deadlineExceeded => .deadlineExceeded

/-- Values stored in requests and row dictionaries (`any` in Go).
`null` is Go `nil`. -/
inductive Val where
  | null
  | int (n : Int)
  | str (s : String)
  | bool (b : Bool)
deriving DecidableEq, Repr

/-- A schema instance (`*SQLSchema` / `*Schema` in Go).  The `id` field
models the allocation address of the instance: two schema instances are
the same Go interface value (and hence the same map key in the engine's
grouping) iff they have the same `id`.  Structurally identical instances
created by two `NewSQLSchema` calls carry distinct `id`s. -/
structure SchemaM where
  id : Nat
  name : String
  columns : List String
deriving DecidableEq, Repr

/-- A `*Request` in transit.  `schema` is `Option` because the Go pointer
may be nil; `orderedValues` is the result of `request.GetOrderedValues()`,
which is all the flush function reads from a request. -/
structure Request where
  schema : Option SchemaM
  orderedValues : List Val
deriving DecidableEq, Repr

/-! ## BatchFlow.Submit (src/batchflow.go lines 137-176)

The Go function reads, in order: `ctx.Err()`, the atomic `closed` flag,
nil-ness of the request, nil-ness of its schema, emptiness of the column
list, emptiness of the schema name, and finally runs a `select` that
either sends into the buffered channel or observes `ctx.Done()`.
The `select`'s nondeterministic resolution is the oracle `selectSend`
(true: the send branch wins and the request is enqueued); `lateCancel`
is the value of `ctx.Err()` at the moment `ctx.Done()` wins. -/
def submit (ctxErr : Option CancelErr) (closed : Bool) (req : Option Request)
    (buffer : List Request) (selectSend : Bool) (lateCancel : CancelErr) :
    Option Err × List Request :=
  match ctxErr with
  | some c => (some c.toErr, buffer)
  | none =>
    if closed then
      (some Err.canceled, buffer)
    else
      match req with
      | none => (some Err.emptyRequest, buffer)
      | some r =>
        match r.schema with
        | none => (some Err.invalidSchema, buffer)
        | some s =>
          if s.columns.length = 0 then (some Err.missingColumn, buffer)
          else if s.name.length = 0 then (some Err.emptySchemaName, buffer)
          else if selectSend then (none, buffer ++ [r])
          else (some lateCancel.toErr, buffer)

/-- An error is a cancellation error (what Go's `ctx.Err()` can produce). -/
def isCancellation : Err → Prop
  | .canceled => True
  | .deadlineExceeded => True
  | _ => False

/-! ## Engine flush function (src/batchflow.go lines 60-107)

`flushFunc` partitions the batch by schema (a Go map keyed by the
`SchemaInterface` interface value, i.e. by schema-instance identity),
then for each group builds one row dictionary per request and calls
`executor.ExecuteBatch`. -/

/-- Read of a Go `map[string]any` represented as the list of performed
insertions in order: the last write to a key wins, and reading an absent
key yields the zero value of `any`, which is `nil`. -/
def mapLookup (m : List (String × Val)) (k : String) : Val :=
  match m.reverse.find? (fun p => p.1 == k) with
  | some p => p.2
  | none => Val.null

/-- The insertions performed by the row-dictionary loop
`for j, col := range columns { if j < len(values) { rowData[col] = values[j] } }`:
column `j` is paired with value `j` exactly while values remain, which is
`columns.zip values`. -/
def buildRowData (columns : List String) (values : List Val) : List (String × Val) :=
  columns.zip values

/-- The `data` slice assembled for one schema group:
`data[i]` is the row dictionary of the group's `i`-th request, built from
the group key's columns and the request's ordered values. -/
def buildData (schema : SchemaM) (requests : List Request) :
    List (List (String × Val)) :=
  requests.map fun r => buildRowData schema.columns r.orderedValues

/-- The per-group loop of `flushFunc`: for each schema group, check the
context, assemble `data` via `buildData`, call
`executor.ExecuteBatch(ctx, schema, data)` and return its error
immediately when non-nil.  The context is modelled as the constant
`ctxErr` (the value `ctx.Err()` would return throughout the flush; the
periodic re-check inside the assembly loop reads the same value and is
therefore subsumed by the group-entry check).  The first component counts
the `ExecuteBatch` invocations performed. -/
def flushFuncM (ctxErr : Option Err)
    (exec : SchemaM → List (List (String × Val)) → Option Err) :
    List (SchemaM × List Request) → Nat × Option Err
  | [] => (0, none)
  | (s, reqs) :: rest =>
    match ctxErr with
    | some e => (0, some e)
    | none =>
      match exec s (buildData s reqs) with
      | some e => (1, some e)
      | none =>
        let out := flushFuncM ctxErr exec rest
        (out.1 + 1, out.2)

/-- Go map grouping key used by `flushFunc`: the `SchemaInterface`
interface value of the request, i.e. the identity of its schema instance
(`none` is a nil schema pointer). -/
def schemaKey (r : Request) : Option Nat :=
  r.schema.map SchemaM.id

/-- One step of `schemaGroups[schema] = append(schemaGroups[schema], request)`
over an association-list rendering of the Go map. -/
def addToGroup (groups : List (Option Nat × List Request)) (r : Request) :
    List (Option Nat × List Request) :=
  match groups with
  | [] => [(schemaKey r, [r])]
  | (k, g) :: rest =>
    if k == schemaKey r then (k, g ++ [r]) :: rest
    else (k, g) :: addToGroup rest r

/-- The grouping loop of `flushFunc`:
`for _, request := range batchData { schemaGroups[schema] = append(...) }`. -/
def schemaGroups (batch : List Request) : List (Option Nat × List Request) :=
  batch.foldl addToGroup []

/-- Reading one group out of the grouping map. -/
def groupOf (groups : List (Option Nat × List Request)) (k : Option Nat) :
    List Request :=
  match groups.find? (fun p => p.1 == k) with
  | some p => p.2
  | none => []

/-! ## SQLBatchProcessor.ExecuteOperations (src/processor.go lines 76-100)

With `bp.timeout > 0` the call derives a child context via
`context.WithTimeoutCause(ctx, bp.timeout, errors.New("execute batch timeout"))`
and passes the child to `db.ExecContext`.  The cancellation state around
one call is modelled by `ExecScenario`. -/

/-- Cancellation state of one `ExecuteOperations` call.  `timeout` is
`bp.timeout` (0 = unset).  `innerFired` says the processor's own derived
timer expired first (only meaningful when `timeout > 0`: with
`timeout = 0` no inner timer exists and the field is ignored).
`outerCause` is what `context.Cause` returns for the caller's context:
`none` while it is live, otherwise its cancellation cause (Go falls back
to the context's own error when no explicit cause was attached).  `dbErr`
is the error returned by `db.ExecContext`. -/
structure ExecScenario where
  timeout : Nat
  innerFired : Bool
  outerCause : Option Err
  dbErr : Option Err

/-- `context.Cause` of the context handed to `db.ExecContext`: the
processor's sentinel when its own derived timer fired first, the outer
cause otherwise (and exactly the outer cause when no timeout is set). -/
def ctxCause (sc : ExecScenario) : Option Err :=
  if 0 < sc.timeout ∧ sc.innerFired then some Err.execTimeout else sc.outerCause

/-- `errors.Is(err, context.DeadlineExceeded)`. -/
def isDeadlineErr : Err → Bool
  | .deadlineExceeded => true
  | _ => false

/-- `SQLBatchProcessor.ExecuteOperations`: reject empty operations, expect
a statement string first, run `db.ExecContext`, and on a
deadline-exceeded error return the context's cause when one exists. -/
def sqlExecuteOperations (sc : ExecScenario) (operations : List Val) : Option Err :=
  match operations with
  | [] => some (Err.msg "empty operations")
  | op0 :: _ =>
    match op0 with
    | Val.str _ =>
      match sc.dbErr with
      | some e =>
        if isDeadlineErr e then
          match ctxCause sc with
          | some c => some c
          | none => some e
        else some e
      | none => none
    | _ => some (Err.msg "invalid operation type")

/-! ## RedisBatchProcessor.ExecuteOperations (src/processor.go lines 152-191) -/

/-- An element of the `Operations` slice handed to the Redis processor:
either a value that type-asserts to `RedisCmd` (an argv tuple) or any
other value, which the loop silently skips. -/
inductive RedisOpVal where
  | cmd (argv : List String)
  | other
deriving DecidableEq, Repr

/-- Cancellation and backend state of one Redis `ExecuteOperations` call.
`timeout`, `innerFired`, `outerCause` are as in `ExecScenario`; `ctxErr`
is the value `ctx.Err()` returns inside the enqueue loop; `execErr` is the
error from `pipeline.Exec` when at least one command was queued; `cmdErrs`
are the per-command errors collected after a successful Exec. -/
structure RedisScenario where
  timeout : Nat
  innerFired : Bool
  outerCause : Option Err
  ctxErr : Option Err
  execErr : Option Err
  cmdErrs : List (Option Err)

def redisCtxCause (sc : RedisScenario) : Option Err :=
  if 0 < sc.timeout ∧ sc.innerFired then some Err.execTimeout else sc.outerCause

/-- The enqueue loop: for each operation, check `ctx.Err()` and bail out,
then queue the operation when it is a `RedisCmd`.  An empty operations
slice performs no iteration at all. -/
def redisEnqueue (ctxErr : Option Err) :
    List RedisOpVal → Except Err (List (List String))
  | [] => .ok []
  | op :: rest =>
    match ctxErr with
    | some e => .error e
    | none =>
      match redisEnqueue ctxErr rest with
      | .error e => .error e
      | .ok cmds =>
        match op with
        | .cmd argv => .ok (argv :: cmds)
        | .other => .ok cmds

/-- `errors.Join` of an accumulated error and one command error
(nils are dropped, two errors are joined). -/
def goJoin : Option Err → Option Err → Option Err
  | none, none => none
  | some e, none => some e
  | none, some e => some e
  | some a, some b => some (Err.join a b)

/-- `RedisBatchProcessor.ExecuteOperations`: enqueue the commands into a
pipeline, run `pipeline.Exec` — which, per go-redis, returns `(nil, nil)`
without touching the backend when no command was queued — map a
deadline-exceeded Exec error to the context's cause when one exists, and
otherwise join the per-command errors. -/
def redisExecuteOperations (sc : RedisScenario) (operations : List RedisOpVal) :
    Option Err :=
  match redisEnqueue sc.ctxErr operations with
  | .error e => some e
  | .ok cmds =>
    match cmds with
    | [] => none
    | _ :: _ =>
      match sc.execErr with
      | some e =>
        if isDeadlineErr e then
          match redisCtxCause sc with
          | some c => some c
          | none => some e
        else some e
      | none => sc.cmdErrs.foldl goJoin none

/-! ## ThrottledBatchExecutor retry machine -/

/-- Modelled from the spec: the retry configuration consumed by the
executor (the `ThrottledBatchExecutor` implementation is not under src/;
only its tests and callers are).  Fields follow §6: enabled, max_attempts,
backoff_base, max_backoff. -/
structure RetryConfig where
  enabled : Bool
  maxAttempts : Nat
  backoffBase : Nat
  maxBackoff : Nat

/-- Modelled from the spec: backoff before the next attempt,
min(BackoffBase · 2^(attempt−1), MaxBackoff) (§4.3 step 5). -/
def backoffFor (cfg : RetryConfig) (attempt : Nat) : Nat :=
  min (cfg.backoffBase * 2 ^ (attempt - 1)) cfg.maxBackoff

/-- The observable outcome of one `ExecuteBatch`: how many Processor
invocations ran, the `IncError` kinds emitted in order, and the returned
error (`none` = success). -/
structure ExecBatchOut where
  invocations : Nat
  kinds : List String
  result : Option Err
deriving DecidableEq, Repr

/-- Modelled from the spec: the executor's retry state machine (§4.3),
running from attempt number `attempt` with `fuel` attempts still allowed
(initially MaxAttempts).  `proc n` is the outcome of the `n`-th Processor
call (synthesize + execute; `none` = success) and `classify` the retry
classifier `(err) → (retryable, reason)`.  On success return nil; when the
error is non-retryable or the attempt budget is exhausted emit one
`final:<reason>` counter and return the error; otherwise emit one
`retry:<reason>` counter, back off, and try again. -/
def runRetry (proc : Nat → Option Err) (classify : Err → Bool × String) :
    Nat → Nat → ExecBatchOut
  | _, 0 => ⟨0, [], none⟩
  | attempt, fuel + 1 =>
    match proc attempt with
    | none => ⟨1, [], none⟩
    | some e =>
      let rc := classify e
      if rc.1 = true ∧ fuel ≠ 0 then
        let rest := runRetry proc classify (attempt + 1) fuel
        ⟨rest.invocations + 1, ("retry:" ++ rc.2) :: rest.kinds, rest.result⟩
      else ⟨1, ["final:" ++ rc.2], some e⟩

/-- Modelled from the spec: one `ExecuteBatch` starts at attempt 1 with
MaxAttempts attempts available. -/
def executeBatchRetry (proc : Nat → Option Err) (classify : Err → Bool × String)
    (maxAttempts : Nat) : ExecBatchOut :=
  runRetry proc classify 1 maxAttempts

/-- The error-counter kind `kind` starts with `tag` (e.g. `retry:`). -/
def hasTag (tag kind : String) : Bool :=
  tag.toList.isPrefixOf kind.toList

/-- Number of emitted error-counter kinds carrying a given tag. -/
def countTag (tag : String) (kinds : List String) : Nat :=
  kinds.countP (hasTag tag)

/-! ## MySQL driver GenerateInsertSQL -/

/-- Conflict policy of a relational schema (`ConflictStrategy` constants
`ConflictIgnore`, `ConflictReplace`, `ConflictUpdate`). -/
inductive Conflict where
  | ignore
  | replace
  | update
deriving DecidableEq, Repr

/-- A relational schema as the driver sees it: name, ordered columns, and
the conflict policy from its operation config. -/
structure SQLSchemaM where
  name : String
  columns : List String
  strategy : Conflict
deriving DecidableEq, Repr

/-- `strings.Join(xs, ", ")`. -/
def joinComma : List String → String
  | [] => ""
  | [x] => x
  | x :: y :: xs => x ++ ", " ++ joinComma (y :: xs)

/-- One row's placeholder group `(?, ?, …)` with `n` markers. -/
def rowPlaceholder (n : Nat) : String :=
  "(" ++ joinComma (List.replicate n "?") ++ ")"

/-- Modelled from the spec: the MySQL dialect's statement head per
conflict policy (§4.5 dialect table; the driver implementations are not
under src/, only their tests are). -/
def mysqlStmtHead : Conflict → String
  | .ignore => "INSERT IGNORE INTO "
  | .replace => "REPLACE INTO "
  | .update => "INSERT INTO "

/-- Modelled from the spec: the MySQL dialect's statement tail —
UpdateConflict appends `ON DUPLICATE KEY UPDATE c=VALUES(c), …`. -/
def mysqlStmtTail (cols : List String) : Conflict → String
  | .update => " ON DUPLICATE KEY UPDATE "
      ++ joinComma (cols.map fun c => c ++ "=VALUES(" ++ c ++ ")")
  | _ => ""

/-- Modelled from the spec: `MySQLDriver.GenerateInsertSQL` (§4.5 and the
statements expected by the repository's driver tests).  Empty rows produce
empty operations; otherwise the statement is the dialect head, the table
name, the parenthesized column list, one `(?, …)` group per row, and the
dialect tail, with the argument list laid out row-major — for each row in
order, each column's value in declared column order, absent columns bound
as null. -/
def mysqlGenerateInsertSQL (schema : SQLSchemaM)
    (rows : List (List (String × Val))) : String × List Val :=
  match rows with
  | [] => ("", [])
  | _ :: _ =>
    (mysqlStmtHead schema.strategy ++ schema.name ++ " ("
        ++ joinComma schema.columns ++ ") VALUES "
        ++ joinComma (rows.map fun _ => rowPlaceholder schema.columns.length)
        ++ mysqlStmtTail schema.columns schema.strategy,
     rows.flatMap fun row => schema.columns.map fun c => mapLookup row c)

/-- `sub` occurs as a contiguous run of `l`. -/
def containsSub (sub : List Char) : List Char → Bool
  | [] => sub.isEmpty
  | c :: rest => sub.isPrefixOf (c :: rest) || containsSub sub rest

/-- `strings.Contains(s, sub)`. -/
def strContains (s sub : String) : Bool :=
  containsSub sub.toList s.toList

/-- The schema of the driver-test scenario:
Schema("users", [id, name], IgnoreConflict). -/
def usersSchema : SQLSchemaM :=
  { name := "users", columns := ["id", "name"], strategy := Conflict.ignore }

/-- The rows of the driver-test scenario: [{id:1,name:"a"},{id:2,name:"b"}]. -/
def usersRows : List (List (String × Val)) :=
  [[("id", Val.int 1), ("name", Val.str "a")],
   [("id", Val.int 2), ("name", Val.str "b")]]

/-- A concrete schema instance used by witnesses. -/
def sampleSchema : SchemaM :=
  { id := 0, name := "users", columns := ["id"] }

/-- A concrete valid request used by witnesses. -/
def sampleRequest : Request :=
  { schema := some sampleSchema, orderedValues := [Val.int 1] }

/-- Concrete executor outcome used by the C6 witness: the group whose
schema instance is `1` errs, every other group succeeds. -/
def witExec : SchemaM → List (List (String × Val)) → Option Err :=
  fun s _ => if s.id = 1 then some (Err.msg "boom") else none

/-- Two concrete schema groups used by the C6 witness. -/
def witGroups : List (SchemaM × List Request) :=
  [({ id := 1, name := "a", columns := ["x"] }, []),
   ({ id := 2, name := "b", columns := ["x"] }, [])]

/-- Looking a column up in the row dictionary: with distinct columns,
column `j` reads value `j` while `j` is within the values, and `nil`
beyond them. -/
theorem mapLookup_buildRowData (columns : List String) (values : List Val)
    (hnd : columns.Nodup) (j : Nat) (hj : j < columns.length) :
    mapLookup (buildRowData columns values) (columns.get ⟨j, hj⟩)
      = if h : j < values.length then values.get ⟨j, h⟩ else Val.null := by
  induction columns generalizing values j with
  | nil => exact absurd hj (Nat.not_lt_zero j)
  | cons c cs ih =>
    rw [List.nodup_cons] at hnd
    cases values with
    | nil =>
      simp [mapLookup, buildRowData]
    | cons v vs =>
      have hzip : buildRowData (c :: cs) (v :: vs) = (c, v) :: buildRowData cs vs :=
        List.zip_cons_cons
      cases j with
      | zero =>
        have hnone : (buildRowData cs vs).reverse.find? (fun p => p.1 == c) = none := by
          rw [List.find?_eq_none]
          intro p hp hpc
          obtain ⟨a, b⟩ := p
          have hmem : a ∈ cs :=
            (List.of_mem_zip (by simpa [buildRowData] using List.mem_reverse.mp hp)).1
          exact hnd.1 (by simpa using (beq_iff_eq.mp hpc) ▸ hmem)
        simp [mapLookup, hzip, List.find?_append, hnone]
      | succ j =>
        have hj' : j < cs.length := Nat.lt_of_succ_lt_succ hj
        have hne : (c == cs.get ⟨j, hj'⟩) = false := by
          rcases h : c == cs.get ⟨j, hj'⟩ with _ | _
          · rfl
          · exact absurd (beq_iff_eq.mp h ▸ List.get_mem cs j hj') hnd.1
        have ihj := ih vs hnd.2 j hj'
        show mapLookup (buildRowData (c :: cs) (v :: vs)) (cs.get ⟨j, hj'⟩) = _
        rw [hzip]
        simp only [mapLookup, List.reverse_cons, List.find?_append, List.find?_cons,
          hne, cond_false, List.find?_nil, Option.or_none] at ihj ⊢
        rw [ihj]
        by_cases hv : j < vs.length
        · rw [dif_pos hv, dif_pos (by simpa using Nat.succ_lt_succ hv)]
          rfl
        · rw [dif_neg hv, dif_neg (by simpa [Nat.succ_lt_succ_iff] using hv)]

theorem groupOf_addToGroup (groups : List (Option Nat × List Request))
    (r : Request) (k : Option Nat) :
    groupOf (addToGroup groups r) k
      = if schemaKey r = k then groupOf groups k ++ [r] else groupOf groups k := by
  induction groups with
  | nil =>
    by_cases hk : schemaKey r = k <;>
      simp [addToGroup, groupOf, hk]
  | cons p rest ih =>
    obtain ⟨k0, g⟩ := p
    by_cases h0 : k0 = schemaKey r
    · subst h0
      by_cases hk : schemaKey r = k
      · subst hk
        simp [addToGroup, groupOf]
      · simp [addToGroup, groupOf, hk, Ne.symm hk]
    · by_cases hk0 : k0 = k
      · subst hk0
        have hrk : ¬schemaKey r = k0 := fun h => h0 h.symm
        simp [addToGroup, groupOf, h0, hrk]
      · have hstep : addToGroup ((k0, g) :: rest) r = (k0, g) :: addToGroup rest r := by
          simp [addToGroup, h0]
        have hskip : ∀ l, groupOf ((k0, g) :: l) k = groupOf l k := by
          intro l
          simp [groupOf, List.find?_cons, hk0]
        rw [hstep, hskip, hskip, ih]

theorem groupOf_schemaGroups_eq_filter (batch : List Request) (k : Option Nat) :
    groupOf (schemaGroups batch) k = batch.filter (fun r => schemaKey r == k) := by
  suffices h : ∀ acc, groupOf (batch.foldl addToGroup acc) k
      = groupOf acc k ++ batch.filter (fun r => schemaKey r == k) by
    simpa [schemaGroups, groupOf] using h []
  induction batch with
  | nil => simp
  | cons r bs ih =>
    intro acc
    rw [List.foldl_cons, ih (addToGroup acc r), groupOf_addToGroup]
    by_cases hk : schemaKey r = k
    · simp [hk, List.filter_cons]
    · simp [hk, List.filter_cons]

theorem isPrefixOf_append_self (l t : List Char) : l.isPrefixOf (l ++ t) = true := by
  induction l with
  | nil => simp [List.isPrefixOf]
  | cons a as ih => simp [List.isPrefixOf, ih]

theorem hasTag_append (tag r : String) : hasTag tag (tag ++ r) = true := by
  unfold hasTag
  show tag.data.isPrefixOf (tag ++ r).data = true
  rw [String.data_append]
  exact isPrefixOf_append_self _ _

theorem hasTag_retry_not_final (r : String) :
    hasTag "retry:" ("final:" ++ r) = false := by
  have h : ("final:" ++ r).toList
      = 'f' :: 'i' :: 'n' :: 'a' :: 'l' :: ':' :: r.toList := by
    show ("final:" ++ r).data = _
    rw [String.data_append]
    rfl
  unfold hasTag
  rw [h]
  show (('r' == 'f') && _) = false
  simp

theorem hasTag_final_not_retry (r : String) :
    hasTag "final:" ("retry:" ++ r) = false := by
  have h : ("retry:" ++ r).toList
      = 'r' :: 'e' :: 't' :: 'r' :: 'y' :: ':' :: r.toList := by
    show ("retry:" ++ r).data = _
    rw [String.data_append]
    rfl
  unfold hasTag
  rw [h]
  show (('f' == 'r') && _) = false
  simp

theorem mysql_args_eq (schema : SQLSchemaM) (rows : List (List (String × Val))) :
    (mysqlGenerateInsertSQL schema rows).2
      = rows.flatMap fun row => schema.columns.map fun c => mapLookup row c := by
  cases rows <;> rfl

theorem flatMap_row_major (cols : List String)
    (rows : List (List (String × Val))) :
    ∀ i (hi : i < rows.length),
      ((rows.flatMap fun row => cols.map fun c => mapLookup row c).drop
          (i * cols.length)).take cols.length
        = cols.map fun c => mapLookup (rows.get ⟨i, hi⟩) c := by
  induction rows with
  | nil => intro i hi; exact absurd hi (Nat.not_lt_zero i)
  | cons r rs ih =>
    intro i hi
    cases i with
    | zero =>
      simp only [List.flatMap_cons, Nat.zero_mul, List.drop_zero]
      rw [List.take_left' (by simp)]
      rfl
    | succ i =>
      have hi' : i < rs.length := Nat.lt_of_succ_lt_succ hi
      rw [List.flatMap_cons,
        show (i + 1) * cols.length
          = (cols.map fun c => mapLookup r c).length + i * cols.length from by
            rw [List.length_map]; ring,
        List.drop_append]
      exact ih i hi'

end Batchflow

namespace Batchflow

/-- C4: Submit with an already-cancelled context returns that cancellation
error and never touches the buffer, whatever the rest of the state is. -/
theorem submit_cancelled_ctx_never_enqueues
    (c : CancelErr) (closed : Bool) (req : Option Request)
    (buffer : List Request) (selectSend : Bool) (lateCancel : CancelErr) :
    submit (some c) closed req buffer selectSend lateCancel
        = (some c.toErr, buffer)
      ∧ isCancellation c.toErr := by
  refine ⟨rfl, ?_⟩
  cases c <;> trivial

/-- C5: every Submit call returns either nil with the request appended to
the buffer, or exactly one of the five listed errors / a cancellation
error with the buffer unchanged. -/
theorem submit_outcomes
    (ctxErr : Option CancelErr) (closed : Bool) (req : Option Request)
    (buffer : List Request) (selectSend : Bool) (lateCancel : CancelErr) :
    (∀ h : (submit ctxErr closed req buffer selectSend lateCancel).1 = none,
        ∃ r, req = some r
          ∧ (submit ctxErr closed req buffer selectSend lateCancel).2
              = buffer ++ [r])
      ∧ ∀ e, (submit ctxErr closed req buffer selectSend lateCancel).1 = some e →
          (e = Err.emptyRequest ∨ e = Err.invalidSchema ∨ e = Err.missingColumn
            ∨ e = Err.emptySchemaName ∨ isCancellation e)
          ∧ (submit ctxErr closed req buffer selectSend lateCancel).2 = buffer := by
  rcases ctxErr with _ | c
  · cases closed
    · rcases req with _ | r
      · simp [submit, isCancellation]
      · rcases hs : r.schema with _ | s
        · simp [submit, hs, isCancellation]
        · by_cases hc : s.columns.length = 0
          · simp [submit, hs, hc, isCancellation]
          · by_cases hn : s.name.length = 0
            · simp [submit, hs, hc, hn, isCancellation]
            · cases selectSend
              · cases lateCancel <;>
                  simp [submit, hs, hc, hn, isCancellation, CancelErr.toErr]
              · simp [submit, hs, hc, hn]
    · simp [submit, isCancellation]
  · cases c <;> simp [submit, isCancellation, CancelErr.toErr]

/-- C5 witness: at a concrete valid request the success branch and the
buffer append are realized. -/
theorem submit_outcomes_witness :
    ∃ r, (some sampleRequest) = some r
      ∧ (submit none false (some sampleRequest) [] true CancelErr.canceled).2
          = [] ++ [r] :=
  (submit_outcomes none false (some sampleRequest)
    [] true CancelErr.canceled).1 (by decide)

/-- C10 counterexample: a Submit call against a closed engine under a
submit context whose deadline has already expired returns
`context.DeadlineExceeded` (the first `ctx.Err()` check fires), not
`context.Canceled`, refuting "every Submit call returns context.Canceled"
once `closed` is latched. -/
theorem submit_closed_deadline_counterexample :
    submit (some CancelErr.deadlineExceeded) true none [] true CancelErr.canceled
        = (some Err.deadlineExceeded, [])
      ∧ Err.deadlineExceeded ≠ Err.canceled := by
  decide

/-- C10 amended: once the closed flag is latched, every Submit call whose
own context is still live returns `context.Canceled` before any request
validation — a nil request, a nil schema, or an invalid schema all yield
`context.Canceled` rather than their validation errors — and the buffer is
untouched.  (If the submit context is itself already done, its own
cancellation error is returned instead, still before any validation.) -/
theorem submit_closed_returns_canceled
    (req : Option Request) (buffer : List Request)
    (selectSend : Bool) (lateCancel : CancelErr) :
    submit none true req buffer selectSend lateCancel
      = (some Err.canceled, buffer) := rfl

/-- C1: for every schema group, the flush function builds a list of row
dictionaries of the group's size; the `i`-th dictionary is the row data of
the group's `i`-th request, reading the schema's column at position `j` as
the request's ordered value at position `j`, and reading every trailing
column beyond the request's value count as null (a Go `map[string]any`
read of such a column yields `nil`). -/
theorem flush_builds_row_dictionaries (schema : SchemaM) (requests : List Request)
    (hnd : schema.columns.Nodup) :
    (buildData schema requests).length = requests.length
    ∧ (∀ i (hi : i < requests.length),
        (buildData schema requests)[i]?
          = some (buildRowData schema.columns (requests.get ⟨i, hi⟩).orderedValues))
    ∧ ∀ i (hi : i < requests.length) j (hj : j < schema.columns.length),
        (∀ hv : j < (requests.get ⟨i, hi⟩).orderedValues.length,
            mapLookup (buildRowData schema.columns (requests.get ⟨i, hi⟩).orderedValues)
                (schema.columns.get ⟨j, hj⟩)
              = (requests.get ⟨i, hi⟩).orderedValues.get ⟨j, hv⟩)
        ∧ ((requests.get ⟨i, hi⟩).orderedValues.length ≤ j →
            mapLookup (buildRowData schema.columns (requests.get ⟨i, hi⟩).orderedValues)
                (schema.columns.get ⟨j, hj⟩) = Val.null) := by
  refine ⟨by simp [buildData], fun i hi => ?_, fun i hi j hj => ⟨fun hv => ?_, fun hv => ?_⟩⟩
  · simp [buildData, List.getElem?_eq_getElem, hi]
  · rw [mapLookup_buildRowData _ _ hnd j hj, dif_pos hv]
  · rw [mapLookup_buildRowData _ _ hnd j hj, dif_neg (Nat.not_lt.mpr hv)]

/-- C1 witness: a two-column schema with a one-value request reads its
trailing column as null. -/
theorem flush_builds_row_dictionaries_witness :
    mapLookup (buildRowData ["id", "name"] [Val.int 7]) "name" = Val.null := by
  have h := (flush_builds_row_dictionaries
      { id := 0, name := "t", columns := ["id", "name"] }
      [{ schema := some { id := 0, name := "t", columns := ["id", "name"] },
         orderedValues := [Val.int 7] }]
      (by decide)).2.2 0 (by decide) 1 (by decide)
  exact h.2 (by decide)

/-- C6: with a live context, one flush returns the first `ExecuteBatch`
error immediately — exactly the erring group and the groups before it are
invoked, none after — and returns nil iff every group's `ExecuteBatch`
returned nil (in which case every group was invoked). -/
theorem flush_error_short_circuit
    (exec : SchemaM → List (List (String × Val)) → Option Err)
    (groups : List (SchemaM × List Request)) :
    ((flushFuncM none exec groups).2 = none
        ↔ ∀ g ∈ groups, exec g.1 (buildData g.1 g.2) = none)
    ∧ ((flushFuncM none exec groups).2 = none
        → (flushFuncM none exec groups).1 = groups.length)
    ∧ ∀ e, (flushFuncM none exec groups).2 = some e →
        ∃ i, ∃ hi : i < groups.length,
          (flushFuncM none exec groups).1 = i + 1
          ∧ exec (groups.get ⟨i, hi⟩).1
              (buildData (groups.get ⟨i, hi⟩).1 (groups.get ⟨i, hi⟩).2) = some e
          ∧ ∀ k (hk : k < i),
              exec (groups.get ⟨k, Nat.lt_trans hk hi⟩).1
                (buildData (groups.get ⟨k, Nat.lt_trans hk hi⟩).1
                  (groups.get ⟨k, Nat.lt_trans hk hi⟩).2) = none := by
  induction groups with
  | nil => simp [flushFuncM]
  | cons g rest ih =>
    obtain ⟨s, reqs⟩ := g
    cases hx : exec s (buildData s reqs) with
    | some e0 =>
      have hred : flushFuncM none exec ((s, reqs) :: rest) = (1, some e0) := by
        simp [flushFuncM, hx]
      refine ⟨?_, ?_, ?_⟩
      · rw [hred]
        simp only [Option.some_ne_none, false_iff]
        intro hall
        exact absurd (hall (s, reqs) (List.mem_cons_self _ _)) (by simp [hx])
      · rw [hred]
        intro h
        exact absurd h (by simp)
      · intro e he
        rw [hred] at he ⊢
        simp only [Option.some.injEq] at he
        subst he
        exact ⟨0, Nat.succ_pos _, rfl, hx, fun k hk => absurd hk (Nat.not_lt_zero k)⟩
    | none =>
      have hred : flushFuncM none exec ((s, reqs) :: rest)
          = ((flushFuncM none exec rest).1 + 1, (flushFuncM none exec rest).2) := by
        simp [flushFuncM, hx]
      refine ⟨?_, ?_, ?_⟩
      · rw [hred]
        simp only [List.mem_cons, forall_eq_or_imp]
        rw [ih.1]
        simp [hx]
      · rw [hred]
        intro h
        rw [ih.2.1 h]
        simp
      · intro e he
        rw [hred] at he
        obtain ⟨i, hi, hcalls, herr, hbefore⟩ := ih.2.2 e he
        refine ⟨i + 1, Nat.succ_lt_succ hi, ?_, ?_, ?_⟩
        · rw [hred, hcalls]
        · exact herr
        · intro k hk
          cases k with
          | zero => exact hx
          | succ k => exact hbefore k (Nat.lt_of_succ_lt_succ hk)

/-- C6 witness: with two groups whose first `ExecuteBatch` errs, the flush
stops after exactly that invocation and returns its error. -/
theorem flush_error_short_circuit_witness :
    ∃ i, ∃ hi : i < witGroups.length,
      (flushFuncM none witExec witGroups).1 = i + 1
      ∧ witExec (witGroups.get ⟨i, hi⟩).1
          (buildData (witGroups.get ⟨i, hi⟩).1 (witGroups.get ⟨i, hi⟩).2)
          = some (Err.msg "boom")
      ∧ ∀ k (hk : k < i),
          witExec (witGroups.get ⟨k, Nat.lt_trans hk hi⟩).1
            (buildData (witGroups.get ⟨k, Nat.lt_trans hk hi⟩).1
              (witGroups.get ⟨k, Nat.lt_trans hk hi⟩).2) = none :=
  (flush_error_short_circuit witExec witGroups).2.2 (Err.msg "boom") (by decide)

/-- C8: flushFunc partitions a batch by schema identity: two requests land
in a common group iff they carry the same schema instance; in particular
requests whose schemas are structurally identical (same name and columns)
but distinct instances never share a group. -/
theorem schema_grouping_by_identity (batch : List Request) :
    (∀ r1 r2, r1 ∈ batch → r2 ∈ batch →
        ((∃ k, r1 ∈ groupOf (schemaGroups batch) k
            ∧ r2 ∈ groupOf (schemaGroups batch) k)
          ↔ schemaKey r1 = schemaKey r2))
    ∧ ∀ s1 s2 : SchemaM, s1.name = s2.name → s1.columns = s2.columns →
        s1.id ≠ s2.id →
        ∀ r1 r2, r1 ∈ batch → r2 ∈ batch →
          r1.schema = some s1 → r2.schema = some s2 →
          ¬∃ k, r1 ∈ groupOf (schemaGroups batch) k
            ∧ r2 ∈ groupOf (schemaGroups batch) k := by
  have hmem : ∀ (r : Request) (k : Option Nat),
      r ∈ groupOf (schemaGroups batch) k ↔ r ∈ batch ∧ schemaKey r = k := by
    intro r k
    rw [groupOf_schemaGroups_eq_filter, List.mem_filter]
    simp
  have hmain : ∀ r1 r2, r1 ∈ batch → r2 ∈ batch →
      ((∃ k, r1 ∈ groupOf (schemaGroups batch) k
          ∧ r2 ∈ groupOf (schemaGroups batch) k)
        ↔ schemaKey r1 = schemaKey r2) := by
    intro r1 r2 h1 h2
    constructor
    · rintro ⟨k, hk1, hk2⟩
      rw [hmem] at hk1 hk2
      rw [hk1.2, hk2.2]
    · intro hkey
      exact ⟨schemaKey r1, (hmem r1 _).mpr ⟨h1, rfl⟩, (hmem r2 _).mpr ⟨h2, hkey.symm⟩⟩
  refine ⟨hmain, ?_⟩
  intro s1 s2 _ _ hid r1 r2 h1 h2 hs1 hs2 hshared
  have hkey := (hmain r1 r2 h1 h2).mp hshared
  rw [schemaKey, schemaKey, hs1, hs2] at hkey
  exact hid (by simpa using hkey)

/-- C3 counterexample: the key-value Processor called with a zero-length
operations list performs no iteration, queues nothing, and — since
go-redis's `Pipeline.Exec` returns `(nil, nil)` for an empty pipeline —
returns nil, i.e. it succeeds instead of returning a well-defined error. -/
theorem redis_empty_operations_counterexample :
    redisExecuteOperations
        { timeout := 0, innerFired := false, outerCause := none,
          ctxErr := none, execErr := none, cmdErrs := [] } [] = none := rfl

/-- C3 amended: only the relational Processor rejects a zero-length
operations list (with the "empty operations" error); the key-value
Processor executes an empty pipeline and returns nil. -/
theorem empty_operations_amended (sc : ExecScenario) (rsc : RedisScenario) :
    sqlExecuteOperations sc [] = some (Err.msg "empty operations")
      ∧ redisExecuteOperations rsc [] = none := by
  constructor
  · rfl
  · simp [redisExecuteOperations, redisEnqueue]

/-- C7: with a per-call timeout configured and `db.ExecContext` failing
with a context-deadline-exceeded error, `ExecuteOperations` returns the
"execute batch timeout" sentinel iff the deadline came from the
processor's own derived timeout context.  The hypothesis on `outerCause`
is justified by the source: the sentinel is freshly allocated by
`errors.New` inside the call, so the caller's context can never carry
it as its cause. -/
theorem sql_timeout_sentinel_iff_inner
    (sc : ExecScenario) (s : String) (args : List Val)
    (htimeout : 0 < sc.timeout)
    (hdb : sc.dbErr = some Err.deadlineExceeded)
    (houter : sc.outerCause ≠ some Err.execTimeout) :
    sqlExecuteOperations sc (Val.str s :: args) = some Err.execTimeout
      ↔ sc.innerFired = true := by
  cases hin : sc.innerFired with
  | true =>
    simp [sqlExecuteOperations, hdb, isDeadlineErr, ctxCause, htimeout, hin]
  | false =>
    have hcause : ctxCause sc = sc.outerCause := by
      simp [ctxCause, hin]
    cases ho : sc.outerCause with
    | some c =>
      have hrun : sqlExecuteOperations sc (Val.str s :: args) = some c := by
        simp [sqlExecuteOperations, hdb, isDeadlineErr, hcause, ho]
      rw [hrun]
      simp only [Option.some.injEq, Bool.false_eq_true, iff_false]
      intro hc
      exact houter (by rw [ho, hc])
    | none =>
      have hrun : sqlExecuteOperations sc (Val.str s :: args)
          = some Err.deadlineExceeded := by
        simp [sqlExecuteOperations, hdb, isDeadlineErr, hcause, ho]
      rw [hrun]
      simp

/-- C7 witness: a configured timeout whose own timer fired yields the
sentinel. -/
theorem sql_timeout_sentinel_witness :
    0 < (5 : Nat)
      ∧ sqlExecuteOperations
          { timeout := 5, innerFired := true, outerCause := none,
            dbErr := some Err.deadlineExceeded } [Val.str "INSERT"]
          = some Err.execTimeout :=
  ⟨by decide,
    (sql_timeout_sentinel_iff_inner
      { timeout := 5, innerFired := true, outerCause := none,
        dbErr := some Err.deadlineExceeded } "INSERT" []
      (by decide) rfl (by decide)).mpr rfl⟩

/-- C2: with MaxAttempts = M ≥ 1 and a Processor whose every invocation
fails with an error the classifier deems retryable, one `ExecuteBatch`
performs exactly M Processor invocations, emits exactly M−1 error-counter
increments tagged `retry:` and exactly one tagged `final:`, and returns a
non-nil error. -/
theorem executor_retry_always_fails
    (M : Nat) (hM : 1 ≤ M)
    (proc : Nat → Option Err) (classify : Err → Bool × String)
    (hfail : ∀ n, ∃ e, proc n = some e ∧ (classify e).1 = true) :
    (executeBatchRetry proc classify M).invocations = M
    ∧ countTag "retry:" (executeBatchRetry proc classify M).kinds = M - 1
    ∧ countTag "final:" (executeBatchRetry proc classify M).kinds = 1
    ∧ (executeBatchRetry proc classify M).result.isSome := by
  suffices h : ∀ fuel attempt, 1 ≤ fuel →
      (runRetry proc classify attempt fuel).invocations = fuel
      ∧ countTag "retry:" (runRetry proc classify attempt fuel).kinds = fuel - 1
      ∧ countTag "final:" (runRetry proc classify attempt fuel).kinds = 1
      ∧ (runRetry proc classify attempt fuel).result.isSome from
    h M 1 hM
  intro fuel
  induction fuel with
  | zero => intro _ h; exact absurd h (by omega)
  | succ fuel ih =>
    intro attempt _
    obtain ⟨e, hpe, hre⟩ := hfail attempt
    cases fuel with
    | zero =>
      have hred : runRetry proc classify attempt 1
          = ⟨1, ["final:" ++ (classify e).2], some e⟩ := by
        simp [runRetry, hpe]
      rw [hred]
      refine ⟨rfl, ?_, ?_, rfl⟩
      · simp [countTag, List.countP_cons, hasTag_retry_not_final]
      · simp [countTag, List.countP_cons, hasTag_append]
    | succ fuel' =>
      obtain ⟨hinv, hretry, hfinal, hres⟩ := ih (attempt + 1) (by omega)
      have hred : runRetry proc classify attempt (fuel' + 1 + 1)
          = ⟨(runRetry proc classify (attempt + 1) (fuel' + 1)).invocations + 1,
             ("retry:" ++ (classify e).2)
               :: (runRetry proc classify (attempt + 1) (fuel' + 1)).kinds,
             (runRetry proc classify (attempt + 1) (fuel' + 1)).result⟩ := by
        simp [runRetry, hpe, hre]
      rw [hred]
      refine ⟨by rw [hinv], ?_, ?_, hres⟩
      · simp only [countTag, List.countP_cons, hasTag_append, if_pos]
        rw [show List.countP (hasTag "retry:")
            (runRetry proc classify (attempt + 1) (fuel' + 1)).kinds
          = fuel' + 1 - 1 from hretry]
        omega
      · simp only [countTag, List.countP_cons, hasTag_final_not_retry,
          Bool.false_eq_true, if_false]
        rw [show List.countP (hasTag "final:")
            (runRetry proc classify (attempt + 1) (fuel' + 1)).kinds
          = 1 from hfinal]

/-- C2 witness: M = 2 with an always-retryable failing Processor yields 2
invocations, one retry increment, one final increment, and an error. -/
theorem executor_retry_always_fails_witness :
    (executeBatchRetry (fun _ => some (Err.msg "timeout: x"))
        (fun _ => (true, "timeout")) 2).invocations = 2
    ∧ countTag "retry:" (executeBatchRetry (fun _ => some (Err.msg "timeout: x"))
        (fun _ => (true, "timeout")) 2).kinds = 2 - 1
    ∧ countTag "final:" (executeBatchRetry (fun _ => some (Err.msg "timeout: x"))
        (fun _ => (true, "timeout")) 2).kinds = 1
    ∧ (executeBatchRetry (fun _ => some (Err.msg "timeout: x"))
        (fun _ => (true, "timeout")) 2).result.isSome :=
  executor_retry_always_fails 2 (by decide)
    (fun _ => some (Err.msg "timeout: x")) (fun _ => (true, "timeout"))
    (fun _ => ⟨Err.msg "timeout: x", rfl, rfl⟩)

/-- C9: the MySQL driver under IgnoreConflict on
Schema("users", [id,name]) with rows [{id:1,name:"a"},{id:2,name:"b"}]
produces a statement containing `INSERT IGNORE INTO users` and exactly the
4 positional arguments [1,"a",2,"b"]; in general the argument list has
length len(rows) × len(columns) and row `i` occupies the contiguous
positions of length len(columns) starting at `i · len(columns)` in
declared column order (row-major layout). -/
theorem mysql_generate_insert_ignore :
    (strContains (mysqlGenerateInsertSQL usersSchema usersRows).1
        "INSERT IGNORE INTO users" = true
      ∧ (mysqlGenerateInsertSQL usersSchema usersRows).2
          = [Val.int 1, Val.str "a", Val.int 2, Val.str "b"])
    ∧ (∀ (schema : SQLSchemaM) (rows : List (List (String × Val))),
        (mysqlGenerateInsertSQL schema rows).2.length
          = rows.length * schema.columns.length)
    ∧ ∀ (schema : SQLSchemaM) (rows : List (List (String × Val)))
        (i : Nat) (hi : i < rows.length),
        ((mysqlGenerateInsertSQL schema rows).2.drop
            (i * schema.columns.length)).take schema.columns.length
          = schema.columns.map fun c => mapLookup (rows.get ⟨i, hi⟩) c := by
  refine ⟨⟨by decide, by decide⟩, fun schema rows => ?_, fun schema rows i hi => ?_⟩
  · rw [mysql_args_eq]
    induction rows with
    | nil => simp
    | cons r rs ih =>
      rw [List.flatMap_cons, List.length_append, List.length_map, ih,
        List.length_cons]
      ring
  · rw [mysql_args_eq]
    exact flatMap_row_major schema.columns rows i hi

/-- C9 witness: the second row of the driver-test scenario occupies
argument positions 2..3 with [2, "b"]. -/
theorem mysql_generate_insert_ignore_witness :
    ((mysqlGenerateInsertSQL usersSchema usersRows).2.drop
        (1 * usersSchema.columns.length)).take usersSchema.columns.length
      = usersSchema.columns.map fun c =>
          mapLookup (usersRows.get ⟨1, by decide⟩) c :=
  mysql_generate_insert_ignore.2.2 usersSchema usersRows 1 (by decide)

/-- C8 witness: two requests on structurally identical but distinct schema
instances share no group. -/
theorem schema_grouping_by_identity_witness :
    ¬∃ k, ({ schema := some { id := 1, name := "t", columns := ["id"] },
             orderedValues := [] } : Request)
        ∈ groupOf (schemaGroups
            [{ schema := some { id := 1, name := "t", columns := ["id"] },
               orderedValues := [] },
             { schema := some { id := 2, name := "t", columns := ["id"] },
               orderedValues := [] }]) k
      ∧ ({ schema := some { id := 2, name := "t", columns := ["id"] },
           orderedValues := [] } : Request)
        ∈ groupOf (schemaGroups
            [{ schema := some { id := 1, name := "t", columns := ["id"] },
               orderedValues := [] },
             { schema := some { id := 2, name := "t", columns := ["id"] },
               orderedValues := [] }]) k :=
  (schema_grouping_by_identity _).2
    { id := 1, name := "t", columns := ["id"] }
    { id := 2, name := "t", columns := ["id"] }
    rfl rfl (by decide) _ _ (by simp) (by simp) rfl rfl

end Batchflow
